import Mathlib

/-!
Shallow embedding of the tvconvert conversion planner and process monitor
(src/movie.ts, src/ffprobe.ts) together with proofs about the planned
ffmpeg argument lists, path layout, disposition handling, progress
monitoring and interactive stream selection.

Conventions of the embedding:
* TypeScript `string` is Lean `String`; `number` used as an integer index or
  year is `Nat`; `number` used as a duration or progress value is `ℚ`
  (the monitor's arithmetic is modelled exactly over the rationals).
* `undefined` / `null` is `Option.none`.
* `node:path`'s `join` is modelled as concatenation with a single "/"
  separator (`pathJoin`).
* JavaScript `Array.prototype.join("+")` is `joinPlus`.
* Fallible operations (the TypeScript code throws) return `Except String`.
-/

namespace Tvconvert

/-- Fields of interface Stream in movie.ts shared by audio and subtitle
streams, plus the audio-only `channelLayout` of interface AudioStream. -/
structure AudioStream where
  index : Nat
  codecName : String
  language : Option String
  title : Option String
  dispositionsWithoutDefault : List String
  channelLayout : String
  deriving DecidableEq, Repr

/-- interface SubtitleStream in movie.ts (a Stream with no extra fields). -/
structure SubtitleStream where
  index : Nat
  codecName : String
  language : Option String
  title : Option String
  dispositionsWithoutDefault : List String
  deriving DecidableEq, Repr

/-- interface ConversionInfo in movie.ts. -/
structure ConversionInfo where
  containerDurationSeconds : ℚ
  audioStreams : List AudioStream
  selectedAudioStream : AudioStream
  subtitleStreams : List SubtitleStream
  selectedSubtitleStream : Option SubtitleStream
  deriving DecidableEq, Repr

/-- interface ConversionResult in movie.ts. -/
structure ConversionResult where
  successful : Bool
  stderr : String
  deriving DecidableEq, Repr

/-- The identity data of a Movie (title, year, inputFilePath) from
interface IMovie / class Movie in movie.ts. -/
structure Movie where
  title : String
  year : Nat
  inputFilePath : String
  deriving DecidableEq, Repr

/-- The character class `[a-zA-Z0-9-_ ]` of the file-name-safety regex in
`Movie.getFullyQualifiedName` (movie.ts line 67). -/
def fileNameSafeChar (c : Char) : Bool :=
  (('a' ≤ c && c ≤ 'z') || ('A' ≤ c && c ≤ 'Z') || ('0' ≤ c && c ≤ '9')
    || c = '-' || c = '_' || c = ' ')

/-- Embeds `Movie.getFullyQualifiedName` (movie.ts lines 64-71): the call
`title.replace(/[^a-zA-Z0-9-_ ]/g, "")` is modelled as filtering the
characters of the title by `fileNameSafeChar`. -/
def getFullyQualifiedName (m : Movie) (fileNameSafe : Bool) : String :=
  let title := if fileNameSafe then String.mk (m.title.data.filter fileNameSafeChar)
               else m.title
  title ++ " (" ++ toString m.year ++ ")"

/-- Embeds `convertFfprobeDispositionMapToDispositionListWithoutDefault`
(ffprobe.ts): an ffprobe disposition map is a finite map from flag names to
0 or 1, modelled as an association list in key order (JavaScript object
keys are unique and ordered); `Object.keys(map).filter(k => k !== "default"
&& map[k] === 1)`. -/
def convertFfprobeDispositionMapToDispositionListWithoutDefault
    (ffprobeDispositionMap : List (String × Nat)) : List String :=
  (ffprobeDispositionMap.map Prod.fst).filter
    (fun disposition =>
      (disposition != "default") && (ffprobeDispositionMap.lookup disposition == some 1))

/-- Embeds JavaScript `Array.prototype.join("+")` as used by
`getDisposition`. -/
def joinPlus : List String → String
  | [] => ""
  | [x] => x
  | x :: y :: rest => x ++ "+" ++ joinPlus (y :: rest)

/-- Embeds the local `ret` list of `Movie.getDisposition` (movie.ts lines
572-583) just before joining: a copy of `dispositionsWithoutDefault`, with
`"default"` unshifted onto the front when `isDefault` holds. -/
def getDispositionList (dispositionsWithoutDefault : List String)
    (isDefault : Bool) : List String :=
  if isDefault then "default" :: dispositionsWithoutDefault
  else dispositionsWithoutDefault

/-- Embeds `Movie.getDisposition` (movie.ts lines 572-583). -/
def getDisposition (dispositionsWithoutDefault : List String)
    (isDefault : Bool) : String :=
  joinPlus (getDispositionList dispositionsWithoutDefault isDefault)

/-- Embeds `Movie.getStreamDispositionArguments` (movie.ts lines 557-570). -/
def getStreamDispositionArguments (streamSpecifier : String)
    (dispositionsWithoutDefault : List String) (isDefault : Bool) : List String :=
  let disposition := getDisposition dispositionsWithoutDefault isDefault
  if disposition = "" then []
  else ["-disposition:" ++ streamSpecifier, disposition]

/-- Embeds `Movie.getStreamTitle` (movie.ts lines 540-555). -/
def getStreamTitle (language : Option String) (codecName : String)
    (originalTitle : Option String) (channelLayout : Option String) : String :=
  let lang := language.getD "???"
  let ret := lang ++ " " ++ codecName
  let ret := match channelLayout with
    | some cl => ret ++ " " ++ cl
    | none => ret
  match originalTitle with
  | some t => ret ++ " [" ++ t ++ "]"
  | none => ret

/-- Embeds `Movie.getStreamMetadataArguments` (movie.ts lines 514-538). -/
def getStreamMetadataArguments (streamSpecifier : String)
    (language : Option String) (codecName : String)
    (originalTitle : Option String) (channelLayout : Option String) : List String :=
  let ret := ["-metadata:s:" ++ streamSpecifier,
    "title=" ++ getStreamTitle language codecName originalTitle channelLayout]
  match language with
  | some lang => ret ++ ["-metadata:s:" ++ streamSpecifier, "language=" ++ lang]
  | none => ret

/-- Models the join of two path segments from node:path as "/"-separated
concatenation. -/
def pathJoin (a b : String) : String :=
  a ++ "/" ++ b

/-- Embeds `Movie.getOutputSubfolderPath` (movie.ts lines 210-221). -/
def getOutputSubfolderPath (m : Movie) (outputFolderPath : String)
    (selectedSubtitleStream : Option SubtitleStream) : String :=
  let outputSubfolderName :=
    match selectedSubtitleStream with
    | none => "external_subtitle_needed"
    | some _ => "ready"
  pathJoin (pathJoin outputFolderPath outputSubfolderName) (getFullyQualifiedName m true)

/-- Embeds `Movie.getMkvOutputFilePath` (movie.ts lines 486-496). -/
def getMkvOutputFilePath (m : Movie) (outputFolderPath : String)
    (selectedSubtitleStream : Option SubtitleStream) : String :=
  pathJoin (getOutputSubfolderPath m outputFolderPath selectedSubtitleStream)
    (getFullyQualifiedName m true ++ ".mkv")

/-- Embeds `Movie.getSrtOutputFilePath` (movie.ts lines 498-512): the file
name is `[fullyQualifiedName, language ?? "???", "srt"].join(".")`. -/
def getSrtOutputFilePath (m : Movie) (outputFolderPath : String)
    (selectedSubtitleStream : SubtitleStream) : String :=
  pathJoin (getOutputSubfolderPath m outputFolderPath (some selectedSubtitleStream))
    (getFullyQualifiedName m true ++ "." ++
      selectedSubtitleStream.language.getD "???" ++ "." ++ "srt")

/-- Renders the ffmpeg input-stream specifier `0:<index>` interpolated throughout
`getMkvOutputArguments` / `getSrtOutputArguments`. -/
def inputStreamSpecifier (index : Nat) : String :=
  "0:" ++ toString index

/-- Embeds the body of the `for (const audioStream of conversionInfo.audioStreams)`
loop of `getMkvOutputArguments` (movie.ts lines 371-373). -/
def audioStreamMapArguments (a : AudioStream) : List String :=
  ["-map", inputStreamSpecifier a.index]

/-- Embeds the body of the `for (const subtitleStream of conversionInfo.subtitleStreams)`
loop of `getMkvOutputArguments` (movie.ts lines 376-378). -/
def subtitleStreamMapArguments (s : SubtitleStream) : List String :=
  ["-map", inputStreamSpecifier s.index]

/-- Embeds the arguments pushed for the first audio output stream
(movie.ts lines 381-405): transcode to aac/128k/2ch, metadata with codec
name "aac", **no original title**, channel layout "stereo", disposition
with `isDefault := true`. -/
def firstAudioOutputStreamArguments (selected : AudioStream) : List String :=
  ["-codec:a:0", "aac", "-b:a:0", "128k", "-ac:a:0", "2"]
    ++ getStreamMetadataArguments "a:0" selected.language "aac" none (some "stereo")
    ++ getStreamDispositionArguments "a:0" selected.dispositionsWithoutDefault true

/-- Embeds the body of the `conversionInfo.audioStreams.forEach((audioStream, i))`
callback of `getMkvOutputArguments` (movie.ts lines 408-424): metadata and
disposition for output stream `a:<i+1>`, `isDefault := false`. -/
def otherAudioOutputStreamArguments (i : Nat) (a : AudioStream) : List String :=
  getStreamMetadataArguments ("a:" ++ toString (i + 1)) a.language a.codecName
      a.title (some a.channelLayout)
    ++ getStreamDispositionArguments ("a:" ++ toString (i + 1))
      a.dispositionsWithoutDefault false

/-- Embeds the body of the `conversionInfo.subtitleStreams.forEach((subtitleStream, i))`
callback of `getMkvOutputArguments` (movie.ts lines 427-442): metadata and
disposition for output stream `s:<i>`, `isDefault := false`, no channel
layout. -/
def subtitleOutputStreamArguments (i : Nat) (s : SubtitleStream) : List String :=
  getStreamMetadataArguments ("s:" ++ toString i) s.language s.codecName s.title none
    ++ getStreamDispositionArguments ("s:" ++ toString i)
      s.dispositionsWithoutDefault false

/-- Embeds `Movie.getMkvOutputArguments` (movie.ts lines 344-452), with the
sequential `push` calls rendered as list concatenation in source order. -/
def getMkvOutputArguments (m : Movie) (outputFolderPath : String)
    (conversionInfo : ConversionInfo) : List String :=
  ["-codec", "copy", "-map_metadata", "-1", "-map_chapters", "-1",
    "-map", "0:V",
    "-map", inputStreamSpecifier conversionInfo.selectedAudioStream.index]
    ++ conversionInfo.audioStreams.flatMap (fun audioStream =>
        audioStreamMapArguments audioStream)
    ++ conversionInfo.subtitleStreams.flatMap (fun subtitleStream =>
        subtitleStreamMapArguments subtitleStream)
    ++ firstAudioOutputStreamArguments conversionInfo.selectedAudioStream
    ++ conversionInfo.audioStreams.enum.flatMap
      (fun p => otherAudioOutputStreamArguments p.1 p.2)
    ++ conversionInfo.subtitleStreams.enum.flatMap
      (fun p => subtitleOutputStreamArguments p.1 p.2)
    ++ [getMkvOutputFilePath m outputFolderPath conversionInfo.selectedSubtitleStream]

/-- Embeds `Movie.getSrtOutputArguments` (movie.ts lines 454-471). -/
def getSrtOutputArguments (m : Movie) (outputFolderPath : String)
    (conversionInfo : ConversionInfo) : List String :=
  match conversionInfo.selectedSubtitleStream with
  | none => []
  | some s =>
    ["-map", inputStreamSpecifier s.index,
      getSrtOutputFilePath m outputFolderPath s]

/-- Embeds the fixed `globalArguments` of `Movie.convert` (movie.ts lines
124-132). -/
def globalArguments : List String :=
  ["-hide_banner", "-loglevel", "warning", "-nostats", "-progress", "pipe:1", "-y"]

/-- Embeds the argument-assembly head of `Movie.convert` (movie.ts lines
112-145):
fails fast when `conversionInfo` is still `undefined`, otherwise returns
the complete ffmpeg argument list (global + input + both output specs). -/
def convert (m : Movie) (conversionInfo : Option ConversionInfo)
    (outputFolderPath : String) : Except String (List String) :=
  match conversionInfo with
  | none =>
    Except.error "AssertError: must call collectConversionInfo() before convert()"
  | some ci =>
    Except.ok (globalArguments ++ ["-i", m.inputFilePath]
      ++ getMkvOutputArguments m outputFolderPath ci
      ++ getSrtOutputArguments m outputFolderPath ci)

/-- Embeds `Movie.getConversionResult` (movie.ts lines 203-208): fails fast while
the conversion result is still `undefined`. -/
def getConversionResult (conversionResult : Option ConversionResult) :
    Except String ConversionResult :=
  match conversionResult with
  | none => Except.error "AssertError: conversion did not finish yet"
  | some r => Except.ok r

/-- Embeds `Movie.getRoundedProgressPercentage` (movie.ts lines 585-587):
`(normalizedProgress * 100).toFixed(2)` renders the percentage with two
decimal places; two progress values render to the same string exactly when
they round to the same whole number of hundredths of a percent, so the
rounded percentage is modelled as that integer (`toFixed` picks the larger
of two equally near candidates, as `round` does). -/
def getRoundedProgressPercentage (normalizedProgress : ℚ) : ℤ :=
  round (normalizedProgress * 100 * 100)

/-- One progress chunk as seen after the regex extraction in the
`ffmpeg.stdout.on("data")` handler (movie.ts lines 164-170): each captured
value is either the literal "N/A" (modelled `none`) or a numeral; the
`out_time_us` numeral is modelled by its rational value, the `speed` value
is kept verbatim. -/
structure ProgressChunk where
  outTimeUs : Option ℚ
  speed : Option String
  deriving DecidableEq, Repr

/-- One step of the progress handler (movie.ts lines 164-185) on an already
extracted chunk: returns the new remembered rounded percentage and the log
line (rounded percentage, speed) if one is emitted. -/
def processChunk (containerDurationSeconds : ℚ) (roundedProgressPercentage : ℤ)
    (chunk : ProgressChunk) : ℤ × Option (ℤ × String) :=
  match chunk.outTimeUs, chunk.speed with
  | some outTimeMicroseconds, some speed =>
    let outTimeSeconds := outTimeMicroseconds / 1000000
    let progress := outTimeSeconds / containerDurationSeconds
    let newRoundedProgressPercentage := getRoundedProgressPercentage progress
    if newRoundedProgressPercentage ≠ roundedProgressPercentage then
      (newRoundedProgressPercentage, some (newRoundedProgressPercentage, speed))
    else (roundedProgressPercentage, none)
  | _, _ => (roundedProgressPercentage, none)

/-- Folds the progress handler over a sequence of chunks, collecting the
emitted log lines in order. -/
def processChunks (containerDurationSeconds : ℚ)
    (roundedProgressPercentage : ℤ) : List ProgressChunk → List (ℤ × String)
  | [] => []
  | chunk :: rest =>
    let step := processChunk containerDurationSeconds roundedProgressPercentage chunk
    step.2.toList ++ processChunks containerDurationSeconds step.1 rest

/-- Runs the whole monitor of one conversion (movie.ts line 163): the remembered
rounded percentage starts at `getRoundedProgressPercentage(0)`. -/
def runProgressMonitor (containerDurationSeconds : ℚ)
    (chunks : List ProgressChunk) : List (ℤ × String) :=
  processChunks containerDurationSeconds (getRoundedProgressPercentage 0) chunks

/-- Whether the regex `/<key>(.+)\n/` matches the character list starting
exactly here: the literal key, then at least one non-newline character,
then a newline ('.' does not match a newline, and a greedy run that
reaches the end of input without a newline backtracks only onto more
non-newline characters, so it fails). -/
def regexMatchesAt (key : List Char) (cs : List Char) : Bool :=
  key.isPrefixOf cs &&
    (let rest := cs.drop key.length
     let run := rest.takeWhile (fun c => c ≠ '\n')
     !run.isEmpty && !(rest.drop run.length).isEmpty)

/-- Computes the first capture group of JavaScript `data.match(/<key>(.+)\n/)`:
scan left to right for the first position where the pattern matches and
return the captured run, `none` when the regex does not match (JavaScript
returns `null`). -/
def regexFirstCapture (key : List Char) : List Char → Option (List Char)
  | [] => none
  | c :: rest =>
    if regexMatchesAt key (c :: rest) then
      some ((c :: rest).drop key.length |>.takeWhile (fun ch => ch ≠ '\n'))
    else regexFirstCapture key rest

/-- Embeds the raw-string front of the `ffmpeg.stdout.on("data")` callback
(movie.ts lines 164-170): `data.match(/out_time_us=(.+)\n/)[1]` and
`data.match(/speed=(.+)\n/)[1]` dereference a `null` match result (a
thrown TypeError, modelled `Except.error`) when either regex does not
match; when both match, the captured values are compared against the
literal "N/A" and such chunks are skipped (`Except.ok none`), otherwise
both captured strings are handed on (`Except.ok (some ...)`). -/
def onProgressData (data : String) : Except String (Option (String × String)) :=
  match regexFirstCapture "out_time_us=".data data.data with
  | none => Except.error "TypeError: data.match(...) is null"
  | some outTimeMicroseconds =>
    match regexFirstCapture "speed=".data data.data with
    | none => Except.error "TypeError: data.match(...) is null"
    | some speed =>
      if outTimeMicroseconds = "N/A".data ∨ speed = "N/A".data then
        Except.ok none
      else
        Except.ok (some (String.mk outTimeMicroseconds, String.mk speed))

/-- Recognises the JavaScript whitespace accepted (and skipped) by
`Number.parseInt`. -/
def jsWhitespaceChar (c : Char) : Bool :=
  c = ' ' || c = '\t' || c = '\n' || c = '\r' || c = '\x0b' || c = '\x0c'

/-- Reads the longest leading run of decimal digits as a number; `none`
when there is no leading digit (`parseInt` then yields NaN). -/
def parseLeadingDigits (cs : List Char) : Option Nat :=
  let digits := cs.takeWhile Char.isDigit
  if digits.isEmpty then none
  else some (digits.foldl (fun acc c => acc * 10 + (c.toNat - '0'.toNat)) 0)

/-- Embeds `Number.parseInt(s, 10)`: skip leading whitespace, read an optional
sign, then the longest run of decimal digits, ignoring everything after
it; `none` models NaN. -/
def jsParseInt (s : String) : Option ℤ :=
  match s.data.dropWhile jsWhitespaceChar with
  | '-' :: rest => (parseLeadingDigits rest).map (fun n => -(n : ℤ))
  | '+' :: rest => (parseLeadingDigits rest).map (fun n => (n : ℤ))
  | cs => (parseLeadingDigits cs).map (fun n => (n : ℤ))

/-- One round of the `while (true)` loop of `Movie.selectAudioStream`
(movie.ts lines 293-307): parse the operator's answer and search the
catalog for a stream with that index; `none` means the round rejects the
answer and the loop reprompts. -/
def selectAudioStreamRound (audioStreams : List AudioStream)
    (answer : String) : Option AudioStream :=
  let audioStreamIndexCandidate := jsParseInt answer
  audioStreams.find? (fun audioStream =>
    some (audioStream.index : ℤ) = audioStreamIndexCandidate)

/-- One round of the `while (true)` loop of `Movie.selectSubtitleStream`
(movie.ts lines 323-341): the empty answer selects no subtitle
(`some none`); otherwise like the audio round over the full subtitle
catalog; outer `none` means reprompt. -/
def selectSubtitleStreamRound (subtitleStreams : List SubtitleStream)
    (answer : String) : Option (Option SubtitleStream) :=
  if answer = "" then some none
  else
    let subtitleStreamIndexCandidate := jsParseInt answer
    match subtitleStreams.find? (fun subtitleStream =>
        some (subtitleStream.index : ℤ) = subtitleStreamIndexCandidate) with
    | some s => some (some s)
    | none => none

/-- Extracts the targets of the "-map" argument pairs of an ffmpeg argument
list, in
order: every element directly following an element equal to "-map". -/
def mapTargets : List String → List String
  | [] => []
  | a :: rest =>
    if a = "-map" then
      match rest with
      | [] => []
      | b :: rest2 => b :: mapTargets rest2
    else mapTargets rest

/-- Reads one decimal digit character into the accumulated value (used to
relate decimal numerals back to the numbers they render). -/
def decimalStep (acc : Nat) (c : Char) : Nat :=
  acc * 10 + (c.toNat - 48)

/-- Reads a list of decimal digit characters as a number. -/
def decimalValue (cs : List Char) : Nat :=
  cs.foldl decimalStep 0

/-- Appends the decimal digits of `n` to the accumulated value `acc` (the
numeric effect of rendering `n` after a prefix worth `acc`). -/
def shift10 (acc n : Nat) : Nat :=
  if n < 10 then acc * 10 + n
  else shift10 acc (n / 10) * 10 + n % 10
termination_by n
decreasing_by rename_i h; exact Nat.div_lt_self (by omega) (by norm_num)

/-!
Helper lemmas shared by the claim theorems.
-/

theorem digitChar_toNat (n : Nat) (h : n < 10) : (Nat.digitChar n).toNat - 48 = n := by
  interval_cases n <;> rfl

theorem foldl_toDigitsCore :
    ∀ (m : Nat), ∀ (n : Nat), n < 10 ^ (m + 1) → ∀ (ds : List Char) (acc : Nat),
      (Nat.toDigitsCore 10 (m + 1) n ds).foldl decimalStep acc
        = ds.foldl decimalStep (shift10 acc n) := by
  intro m
  induction m with
  | zero =>
    intro n hn ds acc
    have hlt : n < 10 := by simpa using hn
    have h10 : n / 10 = 0 := Nat.div_eq_of_lt hlt
    rw [Nat.toDigitsCore, if_pos h10]
    rw [shift10, if_pos hlt]
    simp only [List.foldl_cons]
    rw [decimalStep, digitChar_toNat _ (Nat.mod_lt _ (by norm_num)), Nat.mod_eq_of_lt hlt]
  | succ m ih =>
    intro n hn ds acc
    by_cases hlt : n < 10
    · have h10 : n / 10 = 0 := Nat.div_eq_of_lt hlt
      rw [Nat.toDigitsCore, if_pos h10]
      rw [shift10, if_pos hlt]
      simp only [List.foldl_cons]
      rw [decimalStep, digitChar_toNat _ (Nat.mod_lt _ (by norm_num)), Nat.mod_eq_of_lt hlt]
    · have h10 : ¬ n / 10 = 0 := by omega
      rw [Nat.toDigitsCore, if_neg h10]
      have hdiv : n / 10 < 10 ^ (m + 1) := by
        rw [pow_succ] at hn
        omega
      rw [ih (n / 10) hdiv]
      simp only [List.foldl_cons]
      conv_rhs => rw [shift10, if_neg hlt]
      congr 1
      rw [decimalStep, digitChar_toNat _ (Nat.mod_lt _ (by norm_num))]

theorem shift10_zero (n : Nat) : shift10 0 n = n := by
  induction n using Nat.strong_induction_on with
  | _ n ih =>
    by_cases h : n < 10
    · rw [shift10, if_pos h]; omega
    · rw [shift10, if_neg h, ih (n / 10) (Nat.div_lt_self (by omega) (by norm_num))]
      omega

/-- Decimal rendering of a natural number reads back to the number itself. -/
theorem decimalValue_repr (n : Nat) : decimalValue (Nat.repr n).data = n := by
  have hfuel : n < 10 ^ (n + 1) :=
    calc n < 10 ^ n := Nat.lt_pow_self (by norm_num) n
    _ ≤ 10 ^ (n + 1) := Nat.pow_le_pow_right (by norm_num) (by omega)
  show (Nat.toDigits 10 n).foldl decimalStep 0 = n
  rw [Nat.toDigits, foldl_toDigitsCore n n hfuel [] 0]
  simpa using shift10_zero n

theorem natRepr_injective : Function.Injective Nat.repr := by
  intro a b h
  have h2 := congrArg (fun s => decimalValue (String.data s)) h
  simpa [decimalValue_repr] using h2

theorem inputStreamSpecifier_injective : Function.Injective inputStreamSpecifier := by
  intro a b h
  have hd := congrArg String.data h
  rw [inputStreamSpecifier, inputStreamSpecifier, String.data_append, String.data_append] at hd
  exact natRepr_injective (String.ext (List.append_cancel_left hd))

theorem inputStreamSpecifier_ne_0V (i : Nat) : inputStreamSpecifier i ≠ "0:V" := by
  intro h
  have hd := congrArg String.data h
  rw [inputStreamSpecifier, String.data_append] at hd
  have hr : (Nat.repr i).data = ['V'] := by
    have : (Nat.repr i).data = ("V" : String).data := List.append_cancel_left hd
    simpa using this
  have hi : i = 38 := by
    have h2 := decimalValue_repr i
    rw [hr] at h2
    simpa [decimalValue, decimalStep] using h2.symm
  subst hi
  exact absurd hr (by decide)

/-- Lookup success in an association list implies membership. -/
theorem lookup_mem (k : String) (v : Nat) :
    ∀ (mp : List (String × Nat)), mp.lookup k = some v → (k, v) ∈ mp := by
  intro mp
  induction mp with
  | nil => intro h; simp [List.lookup] at h
  | cons hd tl ih =>
    intro h
    cases hb : (k == hd.1) with
    | true =>
      simp only [List.lookup, hb] at h
      cases h
      have h1 : k = hd.1 := beq_iff_eq.1 hb
      cases hd
      simp_all
    | false =>
      simp only [List.lookup, hb] at h
      exact List.mem_cons_of_mem _ (ih h)

/-- Membership in an association list with no duplicate keys determines the
lookup result. -/
theorem mem_lookup (k : String) (v : Nat) :
    ∀ (mp : List (String × Nat)), (mp.map Prod.fst).Nodup → (k, v) ∈ mp →
      mp.lookup k = some v := by
  intro mp
  induction mp with
  | nil => intro _ h; simp at h
  | cons hd tl ih =>
    intro hn h
    simp only [List.map_cons, List.nodup_cons] at hn
    rcases List.mem_cons.1 h with h1 | h1
    · cases h1.symm
      simp [List.lookup]
    · have hne : (k == hd.1) = false := by
        simp only [beq_eq_false_iff_ne, ne_eq]
        intro he
        exact hn.1 (he ▸ List.mem_map_of_mem Prod.fst h1)
      simp only [List.lookup, hne]
      exact ih hn.2 h1

/-- C4 (counterexample): the claim says `getFullyQualifiedName(true)` returns
a string containing no character outside `[a-zA-Z0-9-_ ]`, but for the movie
"The Matrix" (1999) the result "The Matrix (1999)" contains the parenthesis
characters appended around the year, which lie outside that class. -/
theorem claim_C4_counterexample :
    getFullyQualifiedName ⟨"The Matrix", 1999, "input.mkv"⟩ true = "The Matrix (1999)"
      ∧ '(' ∈ ("The Matrix (1999)" : String).data
      ∧ fileNameSafeChar '(' = false := by
  refine ⟨by decide, by decide, by decide⟩

/-- C4 (amended): `getFullyQualifiedName(true)` strips from the **title**
every character outside `[a-zA-Z0-9-_ ]` (so the title part of the result
contains no such character) and appends " (" ++ year ++ ")" — the
parentheses of that fixed suffix are themselves outside the class;
`getFullyQualifiedName(false)` preserves the title exactly, followed by
" (" ++ year ++ ")". -/
theorem claim_C4 (m : Movie) :
    getFullyQualifiedName m false = m.title ++ " (" ++ toString m.year ++ ")"
      ∧ getFullyQualifiedName m true
        = String.mk (m.title.data.filter fileNameSafeChar) ++ " (" ++ toString m.year ++ ")"
      ∧ ∀ c ∈ (m.title.data.filter fileNameSafeChar), fileNameSafeChar c = true := by
  refine ⟨rfl, rfl, ?_⟩
  intro c hc
  exact List.of_mem_filter hc

/-- C4 (witness): the amended theorem applied to the movie Amélie (2001). -/
theorem claim_C4_witness :
    getFullyQualifiedName ⟨"Amélie", 2001, "f.mkv"⟩ false
        = "Amélie" ++ " (" ++ toString 2001 ++ ")"
      ∧ fileNameSafeChar 'm' = true :=
  ⟨(claim_C4 ⟨"Amélie", 2001, "f.mkv"⟩).1,
    (claim_C4 ⟨"Amélie", 2001, "f.mkv"⟩).2.2 'm' (by decide)⟩

/-- C5: the disposition list derived from an ffprobe disposition map never
contains "default", and (keys of a JavaScript object being unique) it
contains exactly the keys mapped to 1, excluding "default". -/
theorem claim_C5 (mp : List (String × Nat)) :
    "default" ∉ convertFfprobeDispositionMapToDispositionListWithoutDefault mp
      ∧ ((mp.map Prod.fst).Nodup →
          ∀ k, k ∈ convertFfprobeDispositionMapToDispositionListWithoutDefault mp
            ↔ ((k, 1) ∈ mp ∧ k ≠ "default")) := by
  constructor
  · intro h
    have h2 := List.mem_filter.1 h
    simp at h2
  · intro hn k
    constructor
    · intro h
      have h2 := List.mem_filter.1 h
      rcases h2 with ⟨-, hp⟩
      simp only [Bool.and_eq_true, bne_iff_ne, ne_eq, beq_iff_eq] at hp
      exact ⟨lookup_mem k 1 mp hp.2, hp.1⟩
    · rintro ⟨hmem, hk⟩
      refine List.mem_filter.2 ⟨List.mem_map_of_mem Prod.fst hmem, ?_⟩
      simp only [Bool.and_eq_true, bne_iff_ne, ne_eq, beq_iff_eq]
      exact ⟨hk, mem_lookup k 1 mp hn hmem⟩

/-- C5 (witness): the theorem applied to a concrete disposition map with
keys default/forced/comment. -/
theorem claim_C5_witness :
    "default" ∉ convertFfprobeDispositionMapToDispositionListWithoutDefault
        [("default", 1), ("forced", 1), ("comment", 0)]
      ∧ ("forced" ∈ convertFfprobeDispositionMapToDispositionListWithoutDefault
            [("default", 1), ("forced", 1), ("comment", 0)]
          ↔ (("forced", 1) ∈ [("default", (1 : Nat)), ("forced", 1), ("comment", 0)]
              ∧ "forced" ≠ "default")) :=
  ⟨(claim_C5 [("default", 1), ("forced", 1), ("comment", 0)]).1,
    (claim_C5 [("default", 1), ("forced", 1), ("comment", 0)]).2 (by decide) "forced"⟩

/-- C8: calling convert() before collectConversionInfo() has produced the
conversion info fails with an assertion error, and getConversionResult()
before process termination fails with an assertion error; with the
info/result present both succeed, so neither failure is silently ignored. -/
theorem claim_C8 (m : Movie) (p : String) :
    convert m none p
        = Except.error "AssertError: must call collectConversionInfo() before convert()"
      ∧ getConversionResult none
        = Except.error "AssertError: conversion did not finish yet"
      ∧ (∀ ci : ConversionInfo, convert m (some ci) p
          = Except.ok (globalArguments ++ ["-i", m.inputFilePath]
              ++ getMkvOutputArguments m p ci ++ getSrtOutputArguments m p ci))
      ∧ (∀ r : ConversionResult, getConversionResult (some r) = Except.ok r) :=
  ⟨rfl, rfl, fun _ => rfl, fun _ => rfl⟩

theorem joinPlus_cons_shape (x : String) (l : List String) :
    ∃ t, joinPlus (x :: l) = x ++ t := by
  cases l with
  | nil => exact ⟨"", by simp [joinPlus]⟩
  | cons y rest => exact ⟨"+" ++ joinPlus (y :: rest), by rw [joinPlus, String.append_assoc]⟩

theorem joinPlus_default_ne_empty (l : List String) :
    joinPlus ("default" :: l) ≠ "" := by
  obtain ⟨t, ht⟩ := joinPlus_cons_shape "default" l
  rw [ht]
  intro he
  have hlen := congrArg String.length he
  rw [String.length_append] at hlen
  have h7 : ("default" : String).length = 7 := rfl
  have h0 : ("" : String).length = 0 := rfl
  omega

/-- C6: with no subtitle stream selected, the secondary (srt) output
argument list is empty and the primary output file lands in the
"external_subtitle_needed" subfolder; with a selected subtitle stream the
primary output lands in "ready" and the secondary output is exactly one
"-map" of that stream followed by the path
`<fully-qualified-name>.<language-or-???>.srt` in the same subfolder. -/
theorem claim_C6 (m : Movie) (p : String) (ci : ConversionInfo) :
    (ci.selectedSubtitleStream = none →
      getSrtOutputArguments m p ci = []
        ∧ getMkvOutputFilePath m p ci.selectedSubtitleStream
          = pathJoin (pathJoin (pathJoin p "external_subtitle_needed")
              (getFullyQualifiedName m true)) (getFullyQualifiedName m true ++ ".mkv"))
      ∧ (∀ s, ci.selectedSubtitleStream = some s →
        getMkvOutputFilePath m p ci.selectedSubtitleStream
            = pathJoin (pathJoin (pathJoin p "ready") (getFullyQualifiedName m true))
                (getFullyQualifiedName m true ++ ".mkv")
          ∧ getSrtOutputArguments m p ci
            = ["-map", inputStreamSpecifier s.index,
                pathJoin (pathJoin (pathJoin p "ready") (getFullyQualifiedName m true))
                  (getFullyQualifiedName m true ++ "." ++ s.language.getD "???"
                    ++ "." ++ "srt")]) := by
  constructor
  · intro h
    constructor
    · simp [getSrtOutputArguments, h]
    · simp [getMkvOutputFilePath, getOutputSubfolderPath, h]
  · intro s h
    constructor
    · simp [getMkvOutputFilePath, getOutputSubfolderPath, h]
    · simp [getSrtOutputArguments, getSrtOutputFilePath, getOutputSubfolderPath, h]

/-- C6 (witness): the theorem applied to The Matrix (1999) without and with
a selected subtitle stream. -/
theorem claim_C6_witness :
    getSrtOutputArguments ⟨"The Matrix", 1999, "i.mkv"⟩ "/out"
        ⟨5400, [], ⟨1, "aac", none, none, [], "stereo"⟩,
          [⟨2, "subrip", some "eng", none, []⟩], none⟩ = []
      ∧ getSrtOutputArguments ⟨"The Matrix", 1999, "i.mkv"⟩ "/out"
          ⟨5400, [], ⟨1, "aac", none, none, [], "stereo"⟩,
            [⟨2, "subrip", some "eng", none, []⟩], some ⟨2, "subrip", some "eng", none, []⟩⟩
        = ["-map", inputStreamSpecifier 2,
            pathJoin (pathJoin (pathJoin "/out" "ready")
                (getFullyQualifiedName ⟨"The Matrix", 1999, "i.mkv"⟩ true))
              (getFullyQualifiedName ⟨"The Matrix", 1999, "i.mkv"⟩ true
                ++ "." ++ "eng" ++ "." ++ "srt")] :=
  ⟨((claim_C6 ⟨"The Matrix", 1999, "i.mkv"⟩ "/out"
      ⟨5400, [], ⟨1, "aac", none, none, [], "stereo"⟩,
        [⟨2, "subrip", some "eng", none, []⟩], none⟩).1 rfl).1,
    ((claim_C6 ⟨"The Matrix", 1999, "i.mkv"⟩ "/out"
      ⟨5400, [], ⟨1, "aac", none, none, [], "stereo"⟩,
        [⟨2, "subrip", some "eng", none, []⟩],
        some ⟨2, "subrip", some "eng", none, []⟩⟩).2
      ⟨2, "subrip", some "eng", none, []⟩ rfl).2⟩

/-- C2 (counterexample): the claim says the title of output audio stream 0
carries a bracketed segment exactly when the selected audio stream has an
original title; but the code passes `undefined` as the original title for
stream a:0, so for a selected stream titled "Commentary" the planned
arguments carry "title=eng aac stereo" and never the bracketed form. -/
theorem claim_C2_counterexample :
    (some "Commentary" : Option String) = AudioStream.title
        ⟨1, "dts", some "eng", some "Commentary", [], "5.1"⟩
      ∧ "title=eng aac stereo [Commentary]"
        ∉ getMkvOutputArguments ⟨"M", 2000, "i.mkv"⟩ "/o"
            ⟨100, [⟨1, "dts", some "eng", some "Commentary", [], "5.1"⟩],
              ⟨1, "dts", some "eng", some "Commentary", [], "5.1"⟩, [], none⟩
      ∧ "title=eng aac stereo"
        ∈ getMkvOutputArguments ⟨"M", 2000, "i.mkv"⟩ "/o"
            ⟨100, [⟨1, "dts", some "eng", some "Commentary", [], "5.1"⟩],
              ⟨1, "dts", some "eng", some "Commentary", [], "5.1"⟩, [], none⟩ := by
  refine ⟨rfl, by decide, by decide⟩

/-- C2 (amended): output audio stream 0 is given codec aac, bitrate 128k,
2 channels, the title "<language-or-???> aac stereo" with **no** bracketed
original-title segment (the code passes undefined for it), a language
metadata argument exactly when the selected stream has a language, and the
disposition formed by prepending "default" to the dispositions-without-
default and joining with "+" (never omitted); the whole block occurs
inside the planned mkv arguments. -/
theorem claim_C2 (sel : AudioStream) :
    getStreamTitle sel.language "aac" none (some "stereo")
        = sel.language.getD "???" ++ " aac stereo"
      ∧ (∀ lang, sel.language = some lang →
          getStreamMetadataArguments "a:0" sel.language "aac" none (some "stereo")
            = ["-metadata:s:a:0", "title=" ++ (lang ++ " aac stereo"),
                "-metadata:s:a:0", "language=" ++ lang])
      ∧ (sel.language = none →
          getStreamMetadataArguments "a:0" sel.language "aac" none (some "stereo")
            = ["-metadata:s:a:0", "title=" ++ "??? aac stereo"])
      ∧ firstAudioOutputStreamArguments sel
        = ["-codec:a:0", "aac", "-b:a:0", "128k", "-ac:a:0", "2"]
          ++ getStreamMetadataArguments "a:0" sel.language "aac" none (some "stereo")
          ++ ["-disposition:a:0", joinPlus ("default" :: sel.dispositionsWithoutDefault)]
      ∧ (∀ (m : Movie) (p : String) (ci : ConversionInfo),
          firstAudioOutputStreamArguments ci.selectedAudioStream
            <:+: getMkvOutputArguments m p ci) := by
  have htitle : ∀ lo : Option String, getStreamTitle lo "aac" none (some "stereo")
      = lo.getD "???" ++ " aac stereo" := by
    intro lo
    simp only [getStreamTitle, String.append_assoc]
    exact congrArg _ (by decide)
  refine ⟨htitle sel.language, ?_, ?_, ?_, ?_⟩
  · intro lang hl
    rw [hl]
    simp only [getStreamMetadataArguments]
    rw [htitle (some lang)]
    rfl
  · intro hl
    rw [hl]
    simp only [getStreamMetadataArguments]
    rw [htitle none]
    rfl
  · rw [firstAudioOutputStreamArguments, getStreamDispositionArguments]
    have hdisp : getDisposition sel.dispositionsWithoutDefault true
        = joinPlus ("default" :: sel.dispositionsWithoutDefault) := rfl
    rw [hdisp, if_neg (joinPlus_default_ne_empty sel.dispositionsWithoutDefault)]
    rfl
  · intro m p ci
    refine ⟨["-codec", "copy", "-map_metadata", "-1", "-map_chapters", "-1",
        "-map", "0:V",
        "-map", inputStreamSpecifier ci.selectedAudioStream.index]
        ++ ci.audioStreams.flatMap (fun audioStream =>
            audioStreamMapArguments audioStream)
        ++ ci.subtitleStreams.flatMap (fun subtitleStream =>
            subtitleStreamMapArguments subtitleStream),
      ci.audioStreams.enum.flatMap (fun q => otherAudioOutputStreamArguments q.1 q.2)
        ++ ci.subtitleStreams.enum.flatMap (fun q => subtitleOutputStreamArguments q.1 q.2)
        ++ [getMkvOutputFilePath m p ci.selectedSubtitleStream], ?_⟩
    simp [getMkvOutputArguments, List.append_assoc]

/-- C2 (witness): the amended theorem applied to a selected stream with
language eng, original title Commentary and a forced disposition. -/
theorem claim_C2_witness :
    getStreamMetadataArguments "a:0"
        (AudioStream.language ⟨1, "dts", some "eng", some "Commentary", ["forced"], "5.1"⟩)
        "aac" none (some "stereo")
      = ["-metadata:s:a:0", "title=" ++ ("eng" ++ " aac stereo"),
          "-metadata:s:a:0", "language=" ++ "eng"] :=
  (claim_C2 ⟨1, "dts", some "eng", some "Commentary", ["forced"], "5.1"⟩).2.1 "eng" rfl

/-- C3: the disposition list of output audio stream 0 always has "default"
as its first entry and its "-disposition" argument pair is never omitted;
a stream written with `isDefault := false` keeps exactly its
dispositions-without-default (which by hypothesis, and by C5 for catalog
streams, never contain "default" — and `otherAudioOutputStreamArguments`
and `subtitleOutputStreamArguments` pass `false` by definition, only
`firstAudioOutputStreamArguments` passes `true`); an empty resulting
disposition list omits the argument pair entirely. -/
theorem claim_C3 (s : String) (dwd : List String) (h : "default" ∉ dwd) :
    getDispositionList dwd true = "default" :: dwd
      ∧ (∃ t, getDisposition dwd true = "default" ++ t)
      ∧ getStreamDispositionArguments s dwd true
        = ["-disposition:" ++ s, getDisposition dwd true]
      ∧ "default" ∉ getDispositionList dwd false
      ∧ (getDispositionList dwd false = [] →
          getStreamDispositionArguments s dwd false = []) := by
  refine ⟨rfl, joinPlus_cons_shape "default" dwd, ?_, ?_, ?_⟩
  · rw [getStreamDispositionArguments]
    have hdisp : getDisposition dwd true = joinPlus ("default" :: dwd) := rfl
    rw [hdisp, if_neg (joinPlus_default_ne_empty dwd)]
  · simpa [getDispositionList] using h
  · intro he
    rw [getStreamDispositionArguments]
    have hdisp : getDisposition dwd false = "" := by
      rw [getDisposition, he, joinPlus]
    rw [hdisp, if_pos rfl]

/-- C3 (witness): the theorem applied to the stream specifier a:0 and the
disposition list [forced]. -/
theorem claim_C3_witness :
    getDispositionList ["forced"] true = "default" :: ["forced"]
      ∧ (∃ t, getDisposition ["forced"] true = "default" ++ t)
      ∧ getStreamDispositionArguments "a:0" ["forced"] true
        = ["-disposition:" ++ "a:0", getDisposition ["forced"] true]
      ∧ "default" ∉ getDispositionList ["forced"] false
      ∧ (getDispositionList ["forced"] false = [] →
          getStreamDispositionArguments "a:0" ["forced"] false = []) :=
  claim_C3 "a:0" ["forced"] (by decide)

theorem mapTargets_cons_ne (x : String) (rest : List String) (hx : x ≠ "-map") :
    mapTargets (x :: rest) = mapTargets rest := by
  rw [mapTargets.eq_def]
  simp only []
  rw [if_neg hx]

theorem mapTargets_cons_map (t : String) (rest : List String) :
    mapTargets ("-map" :: t :: rest) = t :: mapTargets rest := by
  rw [mapTargets.eq_def]
  simp

theorem mapTargets_nil_of_not_mem : ∀ (l : List String), "-map" ∉ l → mapTargets l = [] := by
  intro l
  induction l with
  | nil => intro _; rfl
  | cons x rest ih =>
    intro h
    rw [mapTargets_cons_ne x rest (fun he => h (he ▸ List.mem_cons_self x rest))]
    exact ih (fun hm => h (List.mem_cons_of_mem x hm))

theorem mapTargets_audio_flatMap :
    ∀ (l : List AudioStream) (tail : List String),
      mapTargets (l.flatMap (fun a => ["-map", inputStreamSpecifier a.index]) ++ tail)
        = l.map (fun a => inputStreamSpecifier a.index) ++ mapTargets tail := by
  intro l
  induction l with
  | nil => intro tail; simp
  | cons a rest ih =>
    intro tail
    simp only [List.flatMap_cons, List.map_cons, List.append_assoc, List.cons_append,
      List.nil_append]
    rw [mapTargets_cons_map]
    rw [ih tail]

theorem mapTargets_subtitle_flatMap :
    ∀ (l : List SubtitleStream) (tail : List String),
      mapTargets (l.flatMap (fun s => ["-map", inputStreamSpecifier s.index]) ++ tail)
        = l.map (fun s => inputStreamSpecifier s.index) ++ mapTargets tail := by
  intro l
  induction l with
  | nil => intro tail; simp
  | cons a rest ih =>
    intro tail
    simp only [List.flatMap_cons, List.map_cons, List.append_assoc, List.cons_append,
      List.nil_append]
    rw [mapTargets_cons_map]
    rw [ih tail]

theorem append_ne_dashmap (a b : String) (h : 4 < a.length) : a ++ b ≠ "-map" := by
  intro e
  have hl := congrArg String.length e
  rw [String.length_append] at hl
  have h4 : ("-map" : String).length = 4 := rfl
  omega

theorem not_mem_metadataArguments (sspec : String) (lang : Option String) (codec : String)
    (ot : Option String) (cl : Option String) :
    "-map" ∉ getStreamMetadataArguments sspec lang codec ot cl := by
  intro hm
  cases lang with
  | none =>
    simp only [getStreamMetadataArguments, List.mem_cons, List.not_mem_nil, or_false] at hm
    rcases hm with hm | hm
    · exact append_ne_dashmap "-metadata:s:" sspec (by decide) hm.symm
    · exact append_ne_dashmap "title=" _ (by decide) hm.symm
  | some l =>
    simp only [getStreamMetadataArguments, List.cons_append, List.nil_append,
      List.mem_cons, List.not_mem_nil, or_false] at hm
    rcases hm with hm | hm | hm | hm
    · exact append_ne_dashmap "-metadata:s:" sspec (by decide) hm.symm
    · exact append_ne_dashmap "title=" _ (by decide) hm.symm
    · exact append_ne_dashmap "-metadata:s:" sspec (by decide) hm.symm
    · exact append_ne_dashmap "language=" l (by decide) hm.symm

theorem joinPlus_eq_dashmap_mem :
    ∀ (l : List String), joinPlus l = "-map" → "-map" ∈ l := by
  intro l
  match l with
  | [] => intro h; exact absurd h (by decide)
  | [x] => intro h; exact h ▸ List.mem_singleton_self x
  | x :: y :: rest =>
    intro h
    exfalso
    have hp : '+' ∈ ("-map" : String).data := by
      rw [← h, joinPlus, String.data_append, String.data_append]
      exact List.mem_append.2 (Or.inl (List.mem_append.2 (Or.inr (by decide))))
    exact absurd hp (by decide)

theorem getDisposition_ne_dashmap (dwd : List String) (b : Bool)
    (h : "-map" ∉ dwd) : getDisposition dwd b ≠ "-map" := by
  intro he
  have hm : "-map" ∈ getDispositionList dwd b := joinPlus_eq_dashmap_mem _ he
  cases b with
  | false => exact h (by simpa [getDispositionList] using hm)
  | true =>
    rw [getDispositionList, if_pos rfl] at hm
    rcases List.mem_cons.1 hm with hm | hm
    · exact absurd hm (by decide)
    · exact h hm

theorem not_mem_dispositionArguments (sspec : String) (dwd : List String) (b : Bool)
    (h : "-map" ∉ dwd) :
    "-map" ∉ getStreamDispositionArguments sspec dwd b := by
  intro hm
  rw [getStreamDispositionArguments] at hm
  by_cases he : getDisposition dwd b = ""
  · rw [if_pos he] at hm
    exact List.not_mem_nil _ hm
  · rw [if_neg he] at hm
    rcases List.mem_cons.1 hm with hm | hm
    · exact append_ne_dashmap "-disposition:" sspec (by decide) hm.symm
    · rw [List.mem_singleton] at hm
      exact getDisposition_ne_dashmap dwd b h hm.symm

theorem not_mem_firstAudioArguments (sel : AudioStream)
    (h : "-map" ∉ sel.dispositionsWithoutDefault) :
    "-map" ∉ firstAudioOutputStreamArguments sel := by
  intro hm
  rw [firstAudioOutputStreamArguments] at hm
  rcases List.mem_append.1 hm with hm | hm
  · rcases List.mem_append.1 hm with hm | hm
    · exact absurd hm (by decide)
    · exact not_mem_metadataArguments _ _ _ _ _ hm
  · exact not_mem_dispositionArguments _ _ _ h hm

theorem not_mem_otherAudioArguments (i : Nat) (a : AudioStream)
    (h : "-map" ∉ a.dispositionsWithoutDefault) :
    "-map" ∉ otherAudioOutputStreamArguments i a := by
  intro hm
  rw [otherAudioOutputStreamArguments] at hm
  rcases List.mem_append.1 hm with hm | hm
  · exact not_mem_metadataArguments _ _ _ _ _ hm
  · exact not_mem_dispositionArguments _ _ _ h hm

theorem not_mem_subtitleArguments (i : Nat) (s : SubtitleStream)
    (h : "-map" ∉ s.dispositionsWithoutDefault) :
    "-map" ∉ subtitleOutputStreamArguments i s := by
  intro hm
  rw [subtitleOutputStreamArguments] at hm
  rcases List.mem_append.1 hm with hm | hm
  · exact not_mem_metadataArguments _ _ _ _ _ hm
  · exact not_mem_dispositionArguments _ _ _ h hm

theorem pathJoin_ne_dashmap (a b : String) : pathJoin a b ≠ "-map" := by
  intro h
  have hp : '/' ∈ ("-map" : String).data := by
    rw [← h, pathJoin, String.data_append, String.data_append]
    exact List.mem_append.2 (Or.inl (List.mem_append.2 (Or.inr (by decide))))
  exact absurd hp (by decide)

/-- C1: the "-map" targets of the planned mkv arguments are, in order: the
video pseudo-stream 0:V, the selected audio stream, every cataloged audio
stream in catalog order, then every cataloged subtitle stream in catalog
order; and (the plan invariant putting the selected stream in the catalog
exactly once, indices being unique container-wide, and no disposition flag
being spelled "-map") the selected audio stream appears exactly twice
among the "-map" targets. -/
theorem claim_C1 (m : Movie) (p : String) (ci : ConversionInfo)
    (hmem : ci.selectedAudioStream ∈ ci.audioStreams)
    (hda : ∀ a ∈ ci.audioStreams, "-map" ∉ a.dispositionsWithoutDefault)
    (hds : ∀ s ∈ ci.subtitleStreams, "-map" ∉ s.dispositionsWithoutDefault)
    (hnodup : (ci.audioStreams.map AudioStream.index).Nodup)
    (hdisj : ci.selectedAudioStream.index ∉ ci.subtitleStreams.map SubtitleStream.index) :
    mapTargets (getMkvOutputArguments m p ci)
        = "0:V" :: inputStreamSpecifier ci.selectedAudioStream.index
          :: (ci.audioStreams.map (fun a => inputStreamSpecifier a.index)
            ++ ci.subtitleStreams.map (fun s => inputStreamSpecifier s.index))
      ∧ (mapTargets (getMkvOutputArguments m p ci)).count
          (inputStreamSpecifier ci.selectedAudioStream.index) = 2 := by
  have htail : mapTargets (firstAudioOutputStreamArguments ci.selectedAudioStream
      ++ (ci.audioStreams.enum.flatMap (fun q => otherAudioOutputStreamArguments q.1 q.2)
        ++ (ci.subtitleStreams.enum.flatMap (fun q => subtitleOutputStreamArguments q.1 q.2)
          ++ [getMkvOutputFilePath m p ci.selectedSubtitleStream]))) = [] := by
    apply mapTargets_nil_of_not_mem
    intro hm
    rcases List.mem_append.1 hm with hm | hm
    · exact not_mem_firstAudioArguments _ (hda _ hmem) hm
    rcases List.mem_append.1 hm with hm | hm
    · rcases List.mem_flatMap.1 hm with ⟨q, hq, hmq⟩
      have hqa : q.2 ∈ ci.audioStreams := by
        rw [List.mem_enum_iff_get?] at hq
        exact List.get?_mem hq
      exact not_mem_otherAudioArguments q.1 q.2 (hda _ hqa) hmq
    rcases List.mem_append.1 hm with hm | hm
    · rcases List.mem_flatMap.1 hm with ⟨q, hq, hmq⟩
      have hqs : q.2 ∈ ci.subtitleStreams := by
        rw [List.mem_enum_iff_get?] at hq
        exact List.get?_mem hq
      exact not_mem_subtitleArguments q.1 q.2 (hds _ hqs) hmq
    · rw [List.mem_singleton] at hm
      exact pathJoin_ne_dashmap _ _ hm.symm
  have horder : mapTargets (getMkvOutputArguments m p ci)
      = "0:V" :: inputStreamSpecifier ci.selectedAudioStream.index
        :: (ci.audioStreams.map (fun a => inputStreamSpecifier a.index)
          ++ ci.subtitleStreams.map (fun s => inputStreamSpecifier s.index)) := by
    simp only [getMkvOutputArguments, audioStreamMapArguments, subtitleStreamMapArguments]
    simp only [List.append_assoc, List.cons_append]
    rw [mapTargets_cons_ne _ _ (by decide)]
    rw [mapTargets_cons_ne _ _ (by decide)]
    rw [mapTargets_cons_ne _ _ (by decide)]
    rw [mapTargets_cons_ne _ _ (by decide)]
    rw [mapTargets_cons_ne _ _ (by decide)]
    rw [mapTargets_cons_ne _ _ (by decide)]
    rw [mapTargets_cons_map]
    rw [mapTargets_cons_map]
    simp only [List.nil_append]
    rw [mapTargets_audio_flatMap]
    rw [mapTargets_subtitle_flatMap]
    rw [htail]
    simp
  refine ⟨horder, ?_⟩
  rw [horder]
  have hA : (ci.audioStreams.map (fun a => inputStreamSpecifier a.index)).count
      (inputStreamSpecifier ci.selectedAudioStream.index) = 1 := by
    rw [show (fun a : AudioStream => inputStreamSpecifier a.index)
        = (inputStreamSpecifier ∘ AudioStream.index) from rfl]
    rw [← List.map_map]
    rw [List.count_map_of_injective _ _ inputStreamSpecifier_injective]
    exact List.count_eq_one_of_mem hnodup (List.mem_map_of_mem _ hmem)
  have hS : (ci.subtitleStreams.map (fun s => inputStreamSpecifier s.index)).count
      (inputStreamSpecifier ci.selectedAudioStream.index) = 0 := by
    rw [show (fun s : SubtitleStream => inputStreamSpecifier s.index)
        = (inputStreamSpecifier ∘ SubtitleStream.index) from rfl]
    rw [← List.map_map]
    rw [List.count_map_of_injective _ _ inputStreamSpecifier_injective]
    exact List.count_eq_zero_of_not_mem hdisj
  rw [List.count_cons, List.count_cons, List.count_append, hA, hS]
  have hne := inputStreamSpecifier_ne_0V ci.selectedAudioStream.index
  simp [hne, Ne.symm hne]

/-- C1 (witness): the theorem applied to a plan with two audio streams
(indices 1 and 2, stream 1 selected) and one subtitle stream (index 3). -/
theorem claim_C1_witness :
    mapTargets (getMkvOutputArguments ⟨"M", 2000, "i.mkv"⟩ "/o"
        ⟨100, [⟨1, "aac", none, none, [], "stereo"⟩, ⟨2, "ac3", none, none, [], "5.1"⟩],
          ⟨1, "aac", none, none, [], "stereo"⟩,
          [⟨3, "subrip", none, none, []⟩], some ⟨3, "subrip", none, none, []⟩⟩)
        = "0:V" :: inputStreamSpecifier 1
          :: ([inputStreamSpecifier 1, inputStreamSpecifier 2] ++ [inputStreamSpecifier 3])
      ∧ (mapTargets (getMkvOutputArguments ⟨"M", 2000, "i.mkv"⟩ "/o"
          ⟨100, [⟨1, "aac", none, none, [], "stereo"⟩, ⟨2, "ac3", none, none, [], "5.1"⟩],
            ⟨1, "aac", none, none, [], "stereo"⟩,
            [⟨3, "subrip", none, none, []⟩], some ⟨3, "subrip", none, none, []⟩⟩)).count
          (inputStreamSpecifier 1) = 2 :=
  claim_C1 ⟨"M", 2000, "i.mkv"⟩ "/o"
    ⟨100, [⟨1, "aac", none, none, [], "stereo"⟩, ⟨2, "ac3", none, none, [], "5.1"⟩],
      ⟨1, "aac", none, none, [], "stereo"⟩,
      [⟨3, "subrip", none, none, []⟩], some ⟨3, "subrip", none, none, []⟩⟩
    (by decide) (by decide) (by decide) (by decide) (by decide)

/-- C7: the progress monitor ignores a chunk whose out_time_us or speed
value is the literal "N/A" (no log, no error, state unchanged); for a
numeric chunk a log line is emitted exactly when the percentage
(out_time_us / 1e6 / duration, as a rounded hundredths-of-percent integer)
differs from the previously logged rounded percentage, which starts at 0;
two consecutive chunks rounding to the same percentage log only once. -/
theorem claim_C7 (d : ℚ) (prev : ℤ) :
    getRoundedProgressPercentage 0 = 0
      ∧ (∀ c : ProgressChunk, c.outTimeUs = none ∨ c.speed = none →
          processChunk d prev c = (prev, none))
      ∧ (∀ (t : ℚ) (sp : String), getRoundedProgressPercentage (t / 1000000 / d) = prev →
          processChunk d prev ⟨some t, some sp⟩ = (prev, none))
      ∧ (∀ (t : ℚ) (sp : String), getRoundedProgressPercentage (t / 1000000 / d) ≠ prev →
          processChunk d prev ⟨some t, some sp⟩
            = (getRoundedProgressPercentage (t / 1000000 / d),
                some (getRoundedProgressPercentage (t / 1000000 / d), sp)))
      ∧ (∀ (t1 t2 : ℚ) (sp1 sp2 : String),
          getRoundedProgressPercentage (t1 / 1000000 / d)
              = getRoundedProgressPercentage (t2 / 1000000 / d) →
          getRoundedProgressPercentage (t1 / 1000000 / d) ≠ prev →
          processChunks d prev [⟨some t1, some sp1⟩, ⟨some t2, some sp2⟩]
            = [(getRoundedProgressPercentage (t1 / 1000000 / d), sp1)]) := by
  have hskip : ∀ (q : ℤ) (t : ℚ) (sp : String),
      getRoundedProgressPercentage (t / 1000000 / d) = q →
      processChunk d q ⟨some t, some sp⟩ = (q, none) := by
    intro q t sp h
    simp only [processChunk]
    rw [if_neg (not_not_intro h)]
  have hlog : ∀ (q : ℤ) (t : ℚ) (sp : String),
      getRoundedProgressPercentage (t / 1000000 / d) ≠ q →
      processChunk d q ⟨some t, some sp⟩
        = (getRoundedProgressPercentage (t / 1000000 / d),
            some (getRoundedProgressPercentage (t / 1000000 / d), sp)) := by
    intro q t sp h
    simp only [processChunk]
    rw [if_pos h]
  refine ⟨by simp [getRoundedProgressPercentage], ?_,
    fun t sp h => hskip prev t sp h, fun t sp h => hlog prev t sp h, ?_⟩
  · intro c h
    rcases c with ⟨o, s⟩
    cases o with
    | none => cases s <;> rfl
    | some tv =>
      cases s with
      | none => rfl
      | some sv => rcases h with h | h <;> simp at h
  · intro t1 t2 sp1 sp2 heq hne
    have h1 := hlog prev t1 sp1 hne
    have h2 := hskip (getRoundedProgressPercentage (t1 / 1000000 / d)) t2 sp2 heq.symm
    simp [processChunks, h1, h2]

/-- C7 (witness): the theorem applied to a 100-second container at the
initial percentage 0 with out_time values one second apart rounding to
1.00 percent each. -/
theorem claim_C7_witness :
    processChunk 100 0 ⟨none, some "1x"⟩ = (0, none)
      ∧ processChunks 100 0 [⟨some 1000000, some "1x"⟩, ⟨some 1000001, some "1.1x"⟩]
        = [(getRoundedProgressPercentage ((1000000 : ℚ) / 1000000 / 100), "1x")] :=
  ⟨(claim_C7 100 0).2.1 ⟨none, some "1x"⟩ (Or.inl rfl),
    (claim_C7 100 0).2.2.2.2 1000000 1000001 "1x" "1.1x"
      (by norm_num [getRoundedProgressPercentage, round_eq])
      (by norm_num [getRoundedProgressPercentage, round_eq])⟩

/-- C9: the progress-data handler crashes (a thrown TypeError, modelled as
an error result) on any chunk lacking an out_time_us= line or a speed=
line, rather than ignoring the chunk; when both lines are present it never
crashes, so totality of progress parsing holds only under that
precondition. -/
theorem claim_C9 (data : String) :
    ((regexFirstCapture "out_time_us=".data data.data = none
        ∨ regexFirstCapture "speed=".data data.data = none) →
      onProgressData data = Except.error "TypeError: data.match(...) is null")
      ∧ ((regexFirstCapture "out_time_us=".data data.data).isSome →
          (regexFirstCapture "speed=".data data.data).isSome →
          onProgressData data ≠ Except.error "TypeError: data.match(...) is null"
            ∧ ∃ r, onProgressData data = Except.ok r) := by
  constructor
  · intro h
    cases ho : regexFirstCapture "out_time_us=".data data.data with
    | none => simp [onProgressData, ho]
    | some t =>
      rcases h with h | h
      · rw [ho] at h
        exact absurd h (by simp)
      · simp [onProgressData, ho, h]
  · intro h1 h2
    obtain ⟨t, ht⟩ := Option.isSome_iff_exists.1 h1
    obtain ⟨sp, hsp⟩ := Option.isSome_iff_exists.1 h2
    by_cases hc : (t = "N/A".data ∨ sp = "N/A".data)
    · have hr : onProgressData data = Except.ok none := by
        simp only [onProgressData, ht, hsp]
        rw [if_pos hc]
      exact ⟨by simp [hr], ⟨none, hr⟩⟩
    · have hr : onProgressData data = Except.ok (some (String.mk t, String.mk sp)) := by
        simp only [onProgressData, ht, hsp]
        rw [if_neg hc]
      exact ⟨by simp [hr], ⟨some (String.mk t, String.mk sp), hr⟩⟩

/-- C9 (witness): a chunk with only fps/frame lines crashes the handler; a
chunk with both lines is handled. -/
theorem claim_C9_witness :
    onProgressData "fps=25\n" = Except.error "TypeError: data.match(...) is null"
      ∧ (onProgressData "out_time_us=5\nspeed=1x\n"
            ≠ Except.error "TypeError: data.match(...) is null"
          ∧ ∃ r, onProgressData "out_time_us=5\nspeed=1x\n" = Except.ok r) :=
  ⟨(claim_C9 "fps=25\n").1 (Or.inl (by decide)),
    (claim_C9 "out_time_us=5\nspeed=1x\n").2 (by decide) (by decide)⟩

/-- C10: a selection round accepts an answer exactly when
Number.parseInt(answer, 10) equals the index of some cataloged stream (for
subtitles, after the empty answer is taken as no selection); in particular
"2x" parses to 2 and is accepted whenever index 2 is cataloged. -/
theorem claim_C10 (audioStreams : List AudioStream)
    (subtitleStreams : List SubtitleStream) (answer : String) :
    ((selectAudioStreamRound audioStreams answer).isSome
        ↔ ∃ a ∈ audioStreams, jsParseInt answer = some (a.index : ℤ))
      ∧ (answer ≠ "" →
          ((selectSubtitleStreamRound subtitleStreams answer).isSome
            ↔ ∃ s ∈ subtitleStreams, jsParseInt answer = some (s.index : ℤ)))
      ∧ selectSubtitleStreamRound subtitleStreams "" = some none
      ∧ jsParseInt "2x" = some 2 := by
  refine ⟨?_, ?_, rfl, by decide⟩
  · rw [selectAudioStreamRound, List.find?_isSome]
    constructor
    · rintro ⟨a, ha, hp⟩
      exact ⟨a, ha, (of_decide_eq_true hp).symm⟩
    · rintro ⟨a, ha, hp⟩
      exact ⟨a, ha, decide_eq_true hp.symm⟩
  · intro h
    have hiso : (selectSubtitleStreamRound subtitleStreams answer).isSome
        = (subtitleStreams.find?
            (fun subtitleStream =>
              some (subtitleStream.index : ℤ) = jsParseInt answer)).isSome := by
      rw [selectSubtitleStreamRound, if_neg h]
      cases hf : subtitleStreams.find?
          (fun subtitleStream =>
            some (subtitleStream.index : ℤ) = jsParseInt answer) <;>
        simp [hf]
    rw [hiso, List.find?_isSome]
    constructor
    · rintro ⟨s, hs, hp⟩
      exact ⟨s, hs, (of_decide_eq_true hp).symm⟩
    · rintro ⟨s, hs, hp⟩
      exact ⟨s, hs, decide_eq_true hp.symm⟩

/-- C10 (witness): the theorem applied to one-stream catalogs, with the
trailing-garbage answer "2x" accepted as index 2. -/
theorem claim_C10_witness :
    ((selectAudioStreamRound [⟨2, "aac", none, none, [], "stereo"⟩] "2x").isSome
        ↔ ∃ a ∈ [(⟨2, "aac", none, none, [], "stereo"⟩ : AudioStream)],
            jsParseInt "2x" = some (a.index : ℤ))
      ∧ ((selectSubtitleStreamRound [⟨3, "subrip", none, none, []⟩] "3").isSome
          ↔ ∃ s ∈ [(⟨3, "subrip", none, none, []⟩ : SubtitleStream)],
              jsParseInt "3" = some (s.index : ℤ)) :=
  ⟨(claim_C10 [⟨2, "aac", none, none, [], "stereo"⟩] [⟨3, "subrip", none, none, []⟩] "2x").1,
    (claim_C10 [⟨2, "aac", none, none, [], "stereo"⟩] [⟨3, "subrip", none, none, []⟩] "3").2.1
      (by decide)⟩

end Tvconvert
